import Mathlib

/-!
Verification development for two release-automation extension hooks:
a conventional-commit validator (`contrib/extensions/commit-validator/hook.py`)
and a git tag creator (`contrib/extensions/git-tagger/hook.py`).

The hooks are embedded shallowly: pure Python functions become Lean
functions over `String`/`List Char`; the interaction with the `git` binary
is made explicit by passing an environment record that fixes the outcome of
each git command a run may issue, and (for the tagger) by threading the
repository's tag list and recording the trace of issued commands.

Python regular expressions are embedded as executable matchers with Python
`re` semantics: `\s` is whitespace, `.` matches anything but a newline, and
`$` anchors at the end of the string or just before one final newline.
Greedy repetition needs no backtracking in the patterns at hand because no
character that may follow a repeated class belongs to that class.
-/

namespace Verso

/-! ## Character classes (Python `re`, ASCII range) -/

/-- The class `[a-z]` of the commit pattern. -/
def isAsciiLowerAlpha (c : Char) : Bool :=
  'a' ≤ c && c ≤ 'z'

/-- The class `[A-Z]`. -/
def isAsciiUpper (c : Char) : Bool :=
  'A' ≤ c && c ≤ 'Z'

/-- The class `[a-z0-9\-]` of the scope token. -/
def isScopeChar (c : Char) : Bool :=
  isAsciiLowerAlpha c || ('0' ≤ c && c ≤ '9') || c = '-'

/-- Python `\s` on the ASCII range: space, tab, newline, carriage return,
vertical tab and form feed. -/
def isPySpace (c : Char) : Bool :=
  c = ' ' || c = '\t' || c = '\n' || c = '\r' || c = '\x0b' || c = '\x0c'

/-- Python `str.lower()` on the ASCII range, as applied by the validator
before matching (`message.lower()`). `Char.toLower` maps `A`-`Z` to
`a`-`z` and fixes everything else. -/
def pyLower (s : String) : String :=
  ⟨s.data.map Char.toLower⟩

/-- Python `str.strip()` on the ASCII range: drop leading and trailing
whitespace. -/
def pyStrip (l : List Char) : List Char :=
  (((l.dropWhile isPySpace).reverse).dropWhile isPySpace).reverse

/-- Python `str.split("\n")`: split at every newline, keeping empty pieces,
so that the empty string yields `[""]`. -/
def splitNL : List Char → List (List Char)
  | [] => [[]]
  | c :: rest =>
    if c = '\n' then [] :: splitNL rest
    else
      match splitNL rest with
      | [] => [[c]]
      | g :: gs => (c :: g) :: gs

/-! ## The conventional-commit pattern

The validator matches the lower-cased message against
`^([a-z]+)\(([a-z0-9\-]+)\):\s+.{1,}$` when a scope is required and against
`^([a-z]+)(\([a-z0-9\-]+\))?:\s+.{1,}$` otherwise, and extracts group 1,
the type token. -/

/-- The suffix the `$` anchor lets a match ignore: one final newline. -/
def stripFinalNewline (l : List Char) : List Char :=
  if l.getLast? = some '\n' then l.dropLast else l

/-- Whether `\s+.{1,}$` matches the whole remainder `r` after the colon:
some nonempty whitespace prefix is followed by a nonempty run of
non-newline characters reaching the anchor. -/
def spaceDescOk (r : List Char) : Bool :=
  let e := stripFinalNewline r
  (List.range e.length).any fun k =>
    decide (0 < k) && (e.take k).all isPySpace && (e.drop k).all fun c => c != '\n'

/-- `re.match` of the conventional-commit pattern against a character list,
returning the captured type token on success. The leading `[a-z]+` and the
scope's `[a-z0-9\-]+` are maximal runs: the character that must follow each
of them does not belong to the repeated class, so Python's greedy matching
is forced. -/
def matchConventional (require_scope : Bool) (l : List Char) : Option (List Char) :=
  let ty := l.takeWhile isAsciiLowerAlpha
  let rest := l.dropWhile isAsciiLowerAlpha
  if ty.isEmpty then none
  else
    match rest with
    | '(' :: r2 =>
      let sc := r2.takeWhile isScopeChar
      let r3 := r2.dropWhile isScopeChar
      if sc.isEmpty then none
      else
        match r3 with
        | ')' :: ':' :: r4 => if spaceDescOk r4 then some ty else none
        | _ => none
    | ':' :: r2 =>
      if require_scope then none
      else if spaceDescOk r2 then some ty else none
    | _ => none

/-- The shape error reported when the pattern does not match
(`hook.py` lines 66-73). -/
def formatErrorMessage (require_scope : Bool) : String :=
  if require_scope then "must match format 'type(scope): description'"
  else "must match format 'type: description' or 'type(scope): description'"

/-- The membership error reported when the extracted type is not allowed
(`hook.py` lines 78-82). -/
def typeNotAllowedMessage (commit_type : String) (allowed_types : List String) : String :=
  "type '" ++ commit_type ++ "' not in allowed types: " ++ String.intercalate ", " allowed_types

/-- `validate_conventional_commit(message, allowed_types, require_scope)`
(`hook.py` lines 48-84): match the lower-cased message against the
conventional-commit pattern, then, if the shape matched and the allowed
list is nonempty, require the extracted type to be a member. -/
def validate_conventional_commit (message : String) (allowed_types : List String)
    (require_scope : Bool) : Bool × String :=
  match matchConventional require_scope (pyLower message).data with
  | none => (false, formatErrorMessage require_scope)
  | some ty =>
    let commit_type : String := ⟨ty⟩
    if allowed_types != [] && !(allowed_types.contains commit_type) then
      (false, typeNotAllowedMessage commit_type allowed_types)
    else
      (true, "")

/-- The default allowed-type list (`hook.py` lines 89-104). -/
def defaultAllowedTypes : List String :=
  ["feat", "fix", "docs", "style", "refactor", "perf", "test", "build", "ci", "chore", "revert"]

/-- The validator's recognized configuration keys, each absent (`none`) or
present; `config.get(key, default)` becomes `Option.getD`. -/
structure ValidatorConfig where
  allowed_types : Option (List String) := none
  require_scope : Option Bool := none

/-- `validate_commits(commits, config)` (`hook.py` lines 87-116): the list
of invalid commits, each paired with its single error reason, in input
order. -/
def validate_commits (commits : List String) (config : ValidatorConfig) :
    List (String × String) :=
  let allowed_types := config.allowed_types.getD defaultAllowedTypes
  let require_scope := config.require_scope.getD false
  commits.filterMap fun commit =>
    match validate_conventional_commit commit allowed_types require_scope with
    | (true, _) => none
    | (false, error) => some (commit, error)

/-! ## Commit history reader

`run_git_command` (`hook.py` lines 13-21) returns the pair of a success
flag (zero exit code) and the stripped stdout on success, or stderr on
failure. The environment below fixes, for one hook run, the outcome of
each git command `get_commits_since_last_tag` may issue. Outputs stand for
the already-stripped text `run_git_command` returns. -/

/-- Outcomes of the commands the history reader may run: `git describe
--tags --abbrev=0`, `git log <tag>..HEAD --pretty=format:%s` and
`git log --pretty=format:%s`. -/
structure GitLogEnv where
  describe_ok : Bool
  describe_out : String
  log_range_ok : Bool
  log_range_out : String
  log_all_ok : Bool
  log_all_out : String

/-- The list comprehension of `hook.py` line 44:
`[c.strip() for c in commits.split("\n") if c.strip()]`. -/
def parseCommitLines (commits : String) : List String :=
  (((splitNL commits.data).map pyStrip).filter fun c => !c.isEmpty).map fun l => (⟨l⟩ : String)

/-- `get_commits_since_last_tag(project_root)` (`hook.py` lines 24-45):
resolve the last tag (falling back to the full log when `git describe`
fails or prints nothing), then split, strip and filter the log output. -/
def get_commits_since_last_tag (env : GitLogEnv) : Bool × List String :=
  let ranged := env.describe_ok && env.describe_out != ""
  let success := if ranged then env.log_range_ok else env.log_all_ok
  let commits := if ranged then env.log_range_out else env.log_all_out
  if !success then (false, [])
  else (true, parseCommitLines commits)

/-- The validator response's `data` object: each key absent or present. -/
structure ValidatorData where
  commits_checked : Option Nat := none
  invalid_count : Option Nat := none
  invalid_commits : Option (List (String × String)) := none
deriving DecidableEq

/-- A hook response `{success, message, data}` of the validator. -/
structure ValidatorResponse where
  success : Bool
  message : String
  data : ValidatorData
deriving DecidableEq

/-- Python truthiness of `input_data.get(field)` for a string-valued
field: present and nonempty. -/
def truthy : Option String → Bool
  | none => false
  | some s => s != ""

/-- One line of the detailed error message (`hook.py` lines 167-170):
the first 60 characters of the commit, an ellipsis, and the reason. -/
def invalidDetailLine (p : String × String) : String :=
  "  - " ++ ⟨p.1.data.take 60⟩ ++ "... -> " ++ p.2

namespace CommitValidator

/-- `main()` of the commit validator (`hook.py` lines 119-212) after a
successful JSON parse: field validation, history retrieval, batch
validation, and the `(response, exit code)` the process emits. -/
def main (project_root : Option String) (config : ValidatorConfig)
    (env : GitLogEnv) : ValidatorResponse × Nat :=
  if !truthy project_root then
    ({ success := false, message := "Missing required field: project_root", data := {} }, 1)
  else
    let r := get_commits_since_last_tag env
    if !r.1 then
      ({ success := false,
         message := "Failed to retrieve git commits. Ensure you are in a git repository.",
         data := {} }, 1)
    else if r.2.isEmpty then
      ({ success := true, message := "No commits to validate",
         data := { commits_checked := some 0 } }, 0)
    else
      let invalid_commits := validate_commits r.2 config
      if !invalid_commits.isEmpty then
        ({ success := false,
           message := "Found " ++ toString invalid_commits.length ++ " invalid commit(s):\n"
             ++ String.intercalate "\n" (invalid_commits.map invalidDetailLine),
           data := { commits_checked := some r.2.length,
                     invalid_count := some invalid_commits.length,
                     invalid_commits := some invalid_commits } }, 1)
      else
        ({ success := true,
           message := "All " ++ toString r.2.length ++ " commit(s) follow conventional commit format",
           data := { commits_checked := some r.2.length, invalid_count := some 0 } }, 0)

end CommitValidator

/-! ## Tag lifecycle manager -/

/-- The tagger's recognized configuration keys (`hook.py` lines 26-30);
`tagPrefix` models the `"prefix"` key. -/
structure TaggerConfig where
  tagPrefix : Option String := none
  annotated : Option Bool := none
  sign : Option Bool := none
  message : Option String := none
  push : Option Bool := none

/-- The local repository state the tagger can observe and mutate: its tags.
Git refuses the empty string as a tag name, so a well-formed state never
holds it; theorems that need this assume `tags.contains "" = false`. -/
structure RepoState where
  tags : List String
deriving DecidableEq

/-- Outcomes of the two mutating commands `create_tag` may run: tag
creation and `git push origin <tag>`. The stderr text accompanies a
failure. Listing tags (`git tag -l <name>`) is deterministic on the
repository state and always exits zero in a repository, so it needs no
environment entry. -/
structure GitEnv where
  create_ok : Bool
  create_err : String
  push_ok : Bool
  push_err : String

/-- The stripped stdout of `git tag -l <name>`: the tag name when it
exists, nothing otherwise. -/
def tagListOutput (repo : RepoState) (tag_name : String) : String :=
  if repo.tags.contains tag_name then tag_name else ""

/-- The argument vector built at `hook.py` lines 48-55: annotated tags get
`-a <name> -m <message>` (and `-s` when signing), lightweight tags a bare
name. -/
def tag_args (annotated sign : Bool) (tag_name tag_message : String) : List String :=
  if annotated then
    ["tag", "-a", tag_name, "-m", tag_message] ++ (if sign then ["-s"] else [])
  else
    ["tag", tag_name]

/-- What one `create_tag` call produced: the `(success, message)` pair it
returns, the repository state afterwards, and the argument vectors of the
git commands it ran, in order. -/
structure TagResult where
  ok : Bool
  message : String
  repo : RepoState
  trace : List (List String)
deriving DecidableEq

namespace GitTagger

/-- `create_tag(version, config, project_root)` (`hook.py` lines 23-69):
derive the tag name and annotation message, stop if the tag already exists
(the source lists the tags twice, with the same deterministic outcome),
create the tag, and push it when requested. -/
def create_tag (version : String) (config : TaggerConfig) (repo : RepoState)
    (env : GitEnv) : TagResult :=
  let pfx := config.tagPrefix.getD "v"
  let annotated := config.annotated.getD true
  let sign := config.sign.getD false
  let message_template := config.message.getD "Release {version}"
  let push := config.push.getD false
  let tag_name := pfx ++ version
  let tag_message := message_template.replace "{version}" version
  let listCmd : List String := ["tag", "-l", tag_name]
  let existing_tags := tagListOutput repo tag_name
  if existing_tags != "" then
    { ok := false, message := "Tag " ++ tag_name ++ " already exists",
      repo := repo, trace := [listCmd, listCmd] }
  else
    let createCmd := tag_args annotated sign tag_name tag_message
    if !env.create_ok then
      { ok := false, message := "Failed to create tag: " ++ env.create_err,
        repo := repo, trace := [listCmd, listCmd, createCmd] }
    else
      let repo2 : RepoState := { tags := tag_name :: repo.tags }
      if push then
        if !env.push_ok then
          { ok := false, message := "Tag created but failed to push: " ++ env.push_err,
            repo := repo2, trace := [listCmd, listCmd, createCmd, ["push", "origin", tag_name]] }
        else
          { ok := true, message := "Created and pushed tag " ++ tag_name,
            repo := repo2, trace := [listCmd, listCmd, createCmd, ["push", "origin", tag_name]] }
      else
        { ok := true, message := "Created tag " ++ tag_name,
          repo := repo2, trace := [listCmd, listCmd, createCmd] }

/-- A hook response of the tagger; its `data` object is always `{}`
(`hook.py` line 106) and is omitted. -/
structure TaggerResponse where
  success : Bool
  message : String
deriving DecidableEq

/-- `main()` of the git tagger (`hook.py` lines 72-125) after a successful
JSON parse: field validation, then `create_tag`, then the `(response,
exit code)` the process emits, alongside the final repository state and
the command trace. -/
def main (version : Option String) (project_root : Option String)
    (config : TaggerConfig) (repo : RepoState) (env : GitEnv) :
    (TaggerResponse × Nat) × RepoState × List (List String) :=
  if !truthy version then
    (({ success := false, message := "Missing required field: version" }, 1), repo, [])
  else if !truthy project_root then
    (({ success := false, message := "Missing required field: project_root" }, 1), repo, [])
  else
    let r := create_tag (version.getD "") config repo env
    ((⟨r.ok, r.message⟩, if r.ok then 0 else 1), r.repo, r.trace)

end GitTagger

/-! ## Helper lemmas on characters and the pattern matcher -/

theorem toNat_ofNat_valid (n : Nat) (hv : n.isValidChar) : (Char.ofNat n).toNat = n := by
  unfold Char.ofNat
  rw [dif_pos hv]
  unfold Char.ofNatAux
  simp [Char.toNat, UInt32.toNat]

theorem isAsciiLowerAlpha_toNat {c : Char} (h : isAsciiLowerAlpha c = true) :
    97 ≤ c.toNat ∧ c.toNat ≤ 122 := by
  rw [isAsciiLowerAlpha, Bool.and_eq_true, decide_eq_true_eq, decide_eq_true_eq] at h
  obtain ⟨h1, h2⟩ := h
  constructor
  · simpa [Char.le_def, UInt32.le_def, BitVec.le_def, Char.toNat, UInt32.toNat] using h1
  · simpa [Char.le_def, UInt32.le_def, BitVec.le_def, Char.toNat, UInt32.toNat] using h2

theorem toLower_of_isAsciiLowerAlpha {c : Char} (h : isAsciiLowerAlpha c = true) :
    Char.toLower c = c := by
  have hb := isAsciiLowerAlpha_toNat h
  unfold Char.toLower
  dsimp only
  rw [if_neg]
  omega

theorem toLower_eq_newline_iff (c : Char) : Char.toLower c = '\n' ↔ c = '\n' := by
  constructor
  · intro heq
    by_contra hne
    unfold Char.toLower at heq
    dsimp only at heq
    split at heq
    · rename_i hr
      have h10 : (Char.ofNat (c.toNat + 32)).toNat = ('\n').toNat := by rw [heq]
      have hv : (c.toNat + 32).isValidChar := by
        left
        omega
      rw [toNat_ofNat_valid _ hv] at h10
      have hn : ('\n').toNat = 10 := by decide
      omega
    · exact hne heq
  · intro h
    subst h
    decide

theorem takeWhile_append_cons {p : Char → Bool} {ty : List Char} {c : Char} {rest : List Char}
    (h : ty.all p = true) (hc : p c = false) :
    (ty ++ c :: rest).takeWhile p = ty := by
  induction ty with
  | nil => simp [List.takeWhile_cons, hc]
  | cons a t ih =>
    rw [List.all_cons, Bool.and_eq_true] at h
    simp [List.takeWhile_cons, h.1, ih h.2]

theorem dropWhile_append_cons {p : Char → Bool} {ty : List Char} {c : Char} {rest : List Char}
    (h : ty.all p = true) (hc : p c = false) :
    (ty ++ c :: rest).dropWhile p = c :: rest := by
  induction ty with
  | nil => simp [List.dropWhile_cons, hc]
  | cons a t ih =>
    rw [List.all_cons, Bool.and_eq_true] at h
    simp [List.dropWhile_cons, h.1, ih h.2]

theorem map_toLower_self {ty : List Char} (h : ty.all isAsciiLowerAlpha = true) :
    ty.map Char.toLower = ty := by
  induction ty with
  | nil => rfl
  | cons a t ih =>
    rw [List.all_cons, Bool.and_eq_true] at h
    simp [toLower_of_isAsciiLowerAlpha h.1, ih h.2]

theorem stripFinalNewline_map_toLower (r : List Char) :
    stripFinalNewline (r.map Char.toLower) = (stripFinalNewline r).map Char.toLower := by
  unfold stripFinalNewline
  rw [List.getLast?_map]
  cases hl : r.getLast? with
  | none => simp
  | some c =>
    rw [Option.map_some']
    by_cases hc : c = '\n'
    · subst hc
      rw [if_pos (by decide), if_pos rfl, List.map_dropLast]
    · rw [if_neg, if_neg]
      · intro hcontra
        exact hc (Option.some.inj hcontra)
      · intro hcontra
        exact hc ((toLower_eq_newline_iff c).1 (Option.some.inj hcontra))

theorem spaceDescOk_cons_space {d : List Char}
    (hne : stripFinalNewline d ≠ [])
    (hnl : ∀ c ∈ stripFinalNewline d, c ≠ '\n') :
    spaceDescOk (' ' :: d) = true := by
  have hd : d ≠ [] := by
    intro h
    subst h
    exact hne rfl
  obtain ⟨x, xs, rfl⟩ : ∃ x xs, d = x :: xs := by
    cases d with
    | nil => exact absurd rfl hd
    | cons x xs => exact ⟨x, xs, rfl⟩
  have hstrip : stripFinalNewline (' ' :: x :: xs) = ' ' :: stripFinalNewline (x :: xs) := by
    unfold stripFinalNewline
    rw [List.getLast?_cons_cons]
    by_cases h : (x :: xs).getLast? = some '\n'
    · rw [if_pos h, if_pos h, List.dropLast_cons_of_ne_nil (List.cons_ne_nil x xs)]
    · rw [if_neg h, if_neg h]
  unfold spaceDescOk
  dsimp only
  rw [hstrip]
  rw [List.any_eq_true]
  refine ⟨1, ?_, ?_⟩
  · rw [List.mem_range, List.length_cons]
    have : stripFinalNewline (x :: xs) ≠ [] := hne
    cases hcase : stripFinalNewline (x :: xs) with
    | nil => exact absurd hcase this
    | cons y ys => rw [List.length_cons]; omega
  · rw [Bool.and_eq_true, Bool.and_eq_true]
    refine ⟨⟨by decide, ?_⟩, ?_⟩
    · rw [List.take_succ_cons, List.take_zero]
      decide
    · rw [List.drop_succ_cons, List.drop_zero, List.all_eq_true]
      intro y hy
      rw [bne_iff_ne]
      exact hnl y hy

theorem matchConventional_type_lower {rs : Bool} {l t : List Char}
    (h : matchConventional rs l = some t) : t.all isAsciiLowerAlpha = true := by
  have hall : (l.takeWhile isAsciiLowerAlpha).all isAsciiLowerAlpha = true :=
    List.all_eq_true.2 fun x hx => List.mem_takeWhile_imp hx
  unfold matchConventional at h
  dsimp only at h
  split at h
  · exact absurd h (by simp)
  · split at h
    · split at h
      · exact absurd h (by simp)
      · split at h
        · split at h
          · rw [Option.some.injEq] at h
            rw [← h]
            exact hall
          · exact absurd h (by simp)
        · exact absurd h (by simp)
    · split at h
      · exact absurd h (by simp)
      · split at h
        · rw [Option.some.injEq] at h
          rw [← h]
          exact hall
        · exact absurd h (by simp)
    · exact absurd h (by simp)

theorem isAsciiUpper_toNat {c : Char} (h : isAsciiUpper c = true) :
    65 ≤ c.toNat ∧ c.toNat ≤ 90 := by
  rw [isAsciiUpper, Bool.and_eq_true, decide_eq_true_eq, decide_eq_true_eq] at h
  obtain ⟨h1, h2⟩ := h
  constructor
  · simpa [Char.le_def, UInt32.le_def, BitVec.le_def, Char.toNat, UInt32.toNat] using h1
  · simpa [Char.le_def, UInt32.le_def, BitVec.le_def, Char.toNat, UInt32.toNat] using h2

/-! ## The spec-side pattern of the claims

`specSimplePattern` renders the claim pattern `^[a-z]+: .+$` under the same
Python `re` semantics as the validator's own pattern; it is a statement
about the original (not lower-cased) message. -/

/-- Whether a message matches `^[a-z]+: .+$`. -/
def specSimplePattern (msg : String) : Bool :=
  let ty := msg.data.takeWhile isAsciiLowerAlpha
  let rest := msg.data.dropWhile isAsciiLowerAlpha
  !ty.isEmpty &&
    match rest with
    | ':' :: ' ' :: r =>
      let e := stripFinalNewline r
      !e.isEmpty && e.all fun c => c != '\n'
    | _ => false

/-- The type token of a message matching `^[a-z]+: .+$`. -/
def specSimpleType (msg : String) : String :=
  ⟨msg.data.takeWhile isAsciiLowerAlpha⟩

/-! ## Claims -/

/-- C1: every commit message matching `^[a-z]+: .+$` whose type token is a
member of the allowed-types list passes `validate_conventional_commit`
with `require_scope = false`, returning valid with an empty error string. -/
theorem claim_C1_unscoped_allowed_type_valid (msg : String) (allowed_types : List String)
    (hmatch : specSimplePattern msg = true)
    (hmem : allowed_types.contains (specSimpleType msg) = true) :
    validate_conventional_commit msg allowed_types false = (true, "") := by
  unfold specSimplePattern at hmatch
  dsimp only at hmatch
  rw [Bool.and_eq_true] at hmatch
  obtain ⟨hne, hrest⟩ := hmatch
  rw [Bool.not_eq_true'] at hne
  split at hrest
  case h_2 => exact absurd hrest (by simp)
  case h_1 r heq =>
    rw [Bool.and_eq_true] at hrest
    obtain ⟨hene, hall⟩ := hrest
    rw [Bool.not_eq_true'] at hene
    have htyall : (msg.data.takeWhile isAsciiLowerAlpha).all isAsciiLowerAlpha = true :=
      List.all_eq_true.2 fun x hx => List.mem_takeWhile_imp hx
    have hdata : msg.data = msg.data.takeWhile isAsciiLowerAlpha ++ ':' :: ' ' :: r := by
      conv_lhs => rw [← List.takeWhile_append_dropWhile (p := isAsciiLowerAlpha) (l := msg.data)]
      rw [heq]
    have hlowdata : (pyLower msg).data
        = msg.data.takeWhile isAsciiLowerAlpha ++ ':' :: ' ' :: (r.map Char.toLower) := by
      show msg.data.map Char.toLower = _
      rw [hdata, List.map_append, map_toLower_self htyall, List.map_cons, List.map_cons]
      rw [show Char.toLower ':' = ':' from by decide, show Char.toLower ' ' = ' ' from by decide]
      rw [takeWhile_append_cons htyall (by decide)]
    have hspace : spaceDescOk (' ' :: r.map Char.toLower) = true := by
      apply spaceDescOk_cons_space
      · rw [stripFinalNewline_map_toLower]
        intro hcontra
        rw [List.map_eq_nil_iff] at hcontra
        rw [hcontra] at hene
        exact absurd hene (by decide)
      · intro c hc
        rw [stripFinalNewline_map_toLower, List.mem_map] at hc
        obtain ⟨c0, hc0, rfl⟩ := hc
        intro hcontra
        have hc0n : c0 = '\n' := (toLower_eq_newline_iff c0).1 hcontra
        subst hc0n
        have := List.all_eq_true.1 hall _ hc0
        rw [bne_iff_ne] at this
        exact this rfl
    have hm : matchConventional false (pyLower msg).data
        = some (msg.data.takeWhile isAsciiLowerAlpha) := by
      rw [hlowdata]
      unfold matchConventional
      dsimp only
      rw [takeWhile_append_cons htyall (by decide), dropWhile_append_cons htyall (by decide)]
      rw [if_neg (by simp [hne])]
      simp [hspace]
    unfold validate_conventional_commit
    rw [hm]
    dsimp only
    have hct : (⟨msg.data.takeWhile isAsciiLowerAlpha⟩ : String) = specSimpleType msg := rfl
    rw [hct, hmem]
    simp

/-- C1 witness: a concrete simple-form message with an allowed type. -/
theorem claim_C1_witness :
    specSimplePattern "feat: add x" = true ∧
    defaultAllowedTypes.contains (specSimpleType "feat: add x") = true ∧
    validate_conventional_commit "feat: add x" defaultAllowedTypes false = (true, "") :=
  ⟨by decide, by decide,
    claim_C1_unscoped_allowed_type_valid "feat: add x" defaultAllowedTypes
      (by decide) (by decide)⟩

/-- C5: a commit message that fails the shape check gets exactly one error
reason, the format error of the active mode; the type-membership error can
never be reported, since the membership check runs only after a shape
match. -/
theorem claim_C5_shape_failure_format_error (msg : String) (allowed_types : List String)
    (require_scope : Bool)
    (h : matchConventional require_scope (pyLower msg).data = none) :
    validate_conventional_commit msg allowed_types require_scope
      = (false, formatErrorMessage require_scope) := by
  unfold validate_conventional_commit
  rw [h]

/-- C5 witness: a concrete shapeless message. -/
theorem claim_C5_witness :
    matchConventional false (pyLower "oops").data = none ∧
    validate_conventional_commit "oops" defaultAllowedTypes false
      = (false, formatErrorMessage false) :=
  ⟨by decide,
    claim_C5_shape_failure_format_error "oops" defaultAllowedTypes false (by decide)⟩

/-- C6: when the shape matches and the allowed-types list is empty,
validation succeeds whatever the extracted type token is. -/
theorem claim_C6_empty_allowed_types_pass (msg : String) (require_scope : Bool)
    (t : List Char)
    (h : matchConventional require_scope (pyLower msg).data = some t) :
    validate_conventional_commit msg [] require_scope = (true, "") := by
  unfold validate_conventional_commit
  rw [h]
  simp

/-- C6 witness: a concrete shape-matching message against the empty list. -/
theorem claim_C6_witness :
    matchConventional false (pyLower "custom: add").data = some ("custom".data) ∧
    validate_conventional_commit "custom: add" [] false = (true, "") :=
  ⟨by decide, claim_C6_empty_allowed_types_pass "custom: add" false ("custom".data) (by decide)⟩

/-- C10: the extracted type token is always lowercase, so when the
allowed-types list is nonempty and each of its entries contains an
uppercase letter, every shape-matching commit is rejected with the
type-not-allowed error. -/
theorem claim_C10_uppercase_allowed_types_unsatisfiable (msg : String)
    (allowed_types : List String) (require_scope : Bool) (t : List Char)
    (hm : matchConventional require_scope (pyLower msg).data = some t)
    (hne : allowed_types ≠ [])
    (hup : allowed_types.all (fun a => a.data.any isAsciiUpper) = true) :
    t.all isAsciiLowerAlpha = true ∧
    validate_conventional_commit msg allowed_types require_scope
      = (false, typeNotAllowedMessage ⟨t⟩ allowed_types) := by
  have hlow := matchConventional_type_lower hm
  refine ⟨hlow, ?_⟩
  have hcontains : allowed_types.contains (⟨t⟩ : String) = false := by
    rw [Bool.eq_false_iff]
    intro hc
    have hmem : (⟨t⟩ : String) ∈ allowed_types := by
      rw [← List.elem_iff]
      exact hc
    have hany := List.all_eq_true.1 hup _ hmem
    rw [List.any_eq_true] at hany
    obtain ⟨c, hc_mem, hc_up⟩ := hany
    have hlc := List.all_eq_true.1 hlow c hc_mem
    have h1 := isAsciiLowerAlpha_toNat hlc
    have h2 := isAsciiUpper_toNat hc_up
    omega
  unfold validate_conventional_commit
  rw [hm]
  dsimp only
  rw [hcontains]
  have hb : (allowed_types != []) = true := bne_iff_ne.2 hne
  rw [hb]
  simp

/-- C10 witness: a concrete shape-matching commit against an allowed list
whose single entry carries an uppercase letter. -/
theorem claim_C10_witness :
    matchConventional false (pyLower "feat: x").data = some ("feat".data) ∧
    (["Feat"] : List String) ≠ [] ∧
    (["Feat"] : List String).all (fun a => a.data.any isAsciiUpper) = true ∧
    ("feat".data).all isAsciiLowerAlpha = true ∧
    validate_conventional_commit "feat: x" ["Feat"] false
      = (false, typeNotAllowedMessage ⟨"feat".data⟩ ["Feat"]) := by
  have h := claim_C10_uppercase_allowed_types_unsatisfiable "feat: x" ["Feat"] false
    ("feat".data) (by decide) (by decide) (by decide)
  exact ⟨by decide, by decide, by decide, h.1, h.2⟩

/-- C2: when the tag `prefix + version` already exists (in a well-formed
repository, whose tags are nonempty names), `create_tag` fails with
"Tag <name> already exists", leaves the repository unchanged, and runs no
tag-creation and no push command — only the two list commands. -/
theorem claim_C2_existing_tag_early_failure (version : String) (config : TaggerConfig)
    (repo : RepoState) (env : GitEnv)
    (hwf : repo.tags.contains "" = false)
    (hex : repo.tags.contains (config.tagPrefix.getD "v" ++ version) = true) :
    GitTagger.create_tag version config repo env =
      { ok := false,
        message := "Tag " ++ (config.tagPrefix.getD "v" ++ version) ++ " already exists",
        repo := repo,
        trace := [["tag", "-l", config.tagPrefix.getD "v" ++ version],
                  ["tag", "-l", config.tagPrefix.getD "v" ++ version]] } := by
  have hname : config.tagPrefix.getD "v" ++ version ≠ "" := by
    intro h
    rw [h] at hex
    rw [hex] at hwf
    exact absurd hwf (by decide)
  unfold GitTagger.create_tag
  dsimp only
  rw [tagListOutput, hex]
  rw [if_pos rfl, if_pos (bne_iff_ne.2 hname)]

/-- C2 witness: the tag `v1.0.0` already exists. -/
theorem claim_C2_witness :
    (⟨["v1.0.0"]⟩ : RepoState).tags.contains "" = false ∧
    (⟨["v1.0.0"]⟩ : RepoState).tags.contains
      (({} : TaggerConfig).tagPrefix.getD "v" ++ "1.0.0") = true ∧
    GitTagger.create_tag "1.0.0" {} ⟨["v1.0.0"]⟩ ⟨true, "", true, ""⟩ =
      { ok := false,
        message := "Tag " ++ (({} : TaggerConfig).tagPrefix.getD "v" ++ "1.0.0")
          ++ " already exists",
        repo := ⟨["v1.0.0"]⟩,
        trace := [["tag", "-l", ({} : TaggerConfig).tagPrefix.getD "v" ++ "1.0.0"],
                  ["tag", "-l", ({} : TaggerConfig).tagPrefix.getD "v" ++ "1.0.0"]] } :=
  ⟨by decide, by decide,
    claim_C2_existing_tag_early_failure "1.0.0" {} ⟨["v1.0.0"]⟩ ⟨true, "", true, ""⟩
      (by decide) (by decide)⟩

/-- C3: when the tag does not pre-exist, local creation succeeds, push is
requested and the push fails, `create_tag` reports overall failure with
"Tag created but failed to push: <error>", and the tag is in the local
repository afterwards. -/
theorem claim_C3_push_failure_keeps_local_tag (version : String) (config : TaggerConfig)
    (repo : RepoState) (env : GitEnv)
    (habsent : repo.tags.contains (config.tagPrefix.getD "v" ++ version) = false)
    (hcreate : env.create_ok = true)
    (hpush : config.push.getD false = true)
    (hpushfail : env.push_ok = false) :
    (GitTagger.create_tag version config repo env).ok = false ∧
    (GitTagger.create_tag version config repo env).message
      = "Tag created but failed to push: " ++ env.push_err ∧
    (GitTagger.create_tag version config repo env).repo.tags
      = (config.tagPrefix.getD "v" ++ version) :: repo.tags := by
  have hmem : (config.tagPrefix.getD "v" ++ version) ∉ repo.tags := by
    simpa using habsent
  simp [GitTagger.create_tag, tagListOutput, hmem, hcreate, hpush, hpushfail]

/-- C3 witness: push to origin fails after the tag was created locally. -/
theorem claim_C3_witness :
    (⟨[]⟩ : RepoState).tags.contains
      (({ push := some true } : TaggerConfig).tagPrefix.getD "v" ++ "1.2.0") = false ∧
    (⟨true, "", false, "network down"⟩ : GitEnv).create_ok = true ∧
    ({ push := some true } : TaggerConfig).push.getD false = true ∧
    (⟨true, "", false, "network down"⟩ : GitEnv).push_ok = false ∧
    ((GitTagger.create_tag "1.2.0" { push := some true } ⟨[]⟩
        ⟨true, "", false, "network down"⟩).ok = false ∧
      (GitTagger.create_tag "1.2.0" { push := some true } ⟨[]⟩
        ⟨true, "", false, "network down"⟩).message
        = "Tag created but failed to push: "
          ++ (⟨true, "", false, "network down"⟩ : GitEnv).push_err ∧
      (GitTagger.create_tag "1.2.0" { push := some true } ⟨[]⟩
        ⟨true, "", false, "network down"⟩).repo.tags
        = (({ push := some true } : TaggerConfig).tagPrefix.getD "v" ++ "1.2.0")
          :: (⟨[]⟩ : RepoState).tags) :=
  ⟨by decide, rfl, by decide, rfl,
    claim_C3_push_failure_keeps_local_tag "1.2.0" { push := some true } ⟨[]⟩
      ⟨true, "", false, "network down"⟩ (by decide) rfl (by decide) rfl⟩

/-- C8: the tag name is `prefix + version` with `prefix` defaulting to
`"v"`; on full success the message is "Created tag <name>" without push
and "Created and pushed tag <name>" when a requested push succeeds. -/
theorem claim_C8_success_message_and_name (version : String) (config : TaggerConfig)
    (repo : RepoState) (env : GitEnv)
    (habsent : repo.tags.contains (config.tagPrefix.getD "v" ++ version) = false)
    (hcreate : env.create_ok = true)
    (hpushok : config.push.getD false = true → env.push_ok = true) :
    (GitTagger.create_tag version config repo env).ok = true ∧
    (GitTagger.create_tag version config repo env).message
      = (if config.push.getD false then "Created and pushed tag " else "Created tag ")
        ++ (config.tagPrefix.getD "v" ++ version) := by
  have hmem : (config.tagPrefix.getD "v" ++ version) ∉ repo.tags := by
    simpa using habsent
  by_cases hp : config.push.getD false = true
  · have hpo := hpushok hp
    simp [GitTagger.create_tag, tagListOutput, hmem, hcreate, hp, hpo]
  · have hp' : config.push.getD false = false := by
      rw [Bool.not_eq_true] at hp
      exact hp
    simp [GitTagger.create_tag, tagListOutput, hmem, hcreate, hp']

/-- C8 witness: scenario B of the spec, prefix `release-` with a
successful push. -/
theorem claim_C8_witness :
    (⟨[]⟩ : RepoState).tags.contains
      (({ tagPrefix := some "release-", push := some true } : TaggerConfig).tagPrefix.getD "v"
        ++ "1.2.0") = false ∧
    (⟨true, "", true, ""⟩ : GitEnv).create_ok = true ∧
    ((GitTagger.create_tag "1.2.0" { tagPrefix := some "release-", push := some true } ⟨[]⟩
        ⟨true, "", true, ""⟩).ok = true ∧
      (GitTagger.create_tag "1.2.0" { tagPrefix := some "release-", push := some true } ⟨[]⟩
        ⟨true, "", true, ""⟩).message
        = (if ({ tagPrefix := some "release-", push := some true } : TaggerConfig).push.getD false
            then "Created and pushed tag " else "Created tag ")
          ++ (({ tagPrefix := some "release-", push := some true }
              : TaggerConfig).tagPrefix.getD "v" ++ "1.2.0")) :=
  ⟨by decide, rfl,
    claim_C8_success_message_and_name "1.2.0"
      { tagPrefix := some "release-", push := some true } ⟨[]⟩ ⟨true, "", true, ""⟩
      (by decide) rfl (fun _ => rfl)⟩

/-- C4 counterexample: on a project root where the log command fails, the
validator's failure message is not "Failed to retrieve commit history."
(the source emits "Failed to retrieve git commits. Ensure you are in a git
repository."). -/
theorem claim_C4_counterexample :
    (CommitValidator.main (some "/repo") {}
        ⟨false, "", true, "", false, "fatal: not a git repository"⟩).1.message
      ≠ "Failed to retrieve commit history." := by
  decide

/-- C4 amended: whenever the history reader fails, the validator hook
fails with the message "Failed to retrieve git commits. Ensure you are in
a git repository." and exit code 1. -/
theorem claim_C4_failed_history_message (project_root : Option String)
    (config : ValidatorConfig) (env : GitLogEnv)
    (hpr : truthy project_root = true)
    (hfail : (get_commits_since_last_tag env).1 = false) :
    CommitValidator.main project_root config env
      = ({ success := false,
           message := "Failed to retrieve git commits. Ensure you are in a git repository.",
           data := {} }, 1) := by
  simp [CommitValidator.main, hpr, hfail]

/-- C4 witness: a concrete environment whose log command fails. -/
theorem claim_C4_witness :
    truthy (some "/repo") = true ∧
    (get_commits_since_last_tag
        ⟨false, "", true, "", false, "fatal: not a git repository"⟩).1 = false ∧
    CommitValidator.main (some "/repo") {}
        ⟨false, "", true, "", false, "fatal: not a git repository"⟩
      = ({ success := false,
           message := "Failed to retrieve git commits. Ensure you are in a git repository.",
           data := {} }, 1) :=
  ⟨by decide, by decide,
    claim_C4_failed_history_message (some "/repo") {}
      ⟨false, "", true, "", false, "fatal: not a git repository"⟩ (by decide) (by decide)⟩

/-- C7: a successful history read that yields no commits makes the
validator hook succeed with `commits_checked = 0` and exit code 0, an
outcome distinct from success on a nonempty all-valid history. -/
theorem claim_C7_empty_history_distinct_success (project_root : Option String)
    (config : ValidatorConfig) (env env2 : GitLogEnv) (commits : List String)
    (hpr : truthy project_root = true)
    (hempty : get_commits_since_last_tag env = (true, []))
    (hsome : get_commits_since_last_tag env2 = (true, commits))
    (hne : commits ≠ [])
    (hvalid : validate_commits commits config = []) :
    CommitValidator.main project_root config env
      = ({ success := true, message := "No commits to validate",
           data := { commits_checked := some 0 } }, 0) ∧
    CommitValidator.main project_root config env2
      ≠ CommitValidator.main project_root config env := by
  have h1 : CommitValidator.main project_root config env
      = ({ success := true, message := "No commits to validate",
           data := { commits_checked := some 0 } }, 0) := by
    simp [CommitValidator.main, hpr, hempty]
  refine ⟨h1, ?_⟩
  have h2 : CommitValidator.main project_root config env2
      = ({ success := true,
           message := "All " ++ toString commits.length
             ++ " commit(s) follow conventional commit format",
           data := { commits_checked := some commits.length, invalid_count := some 0 } }, 0) := by
    simp [CommitValidator.main, hpr, hsome, hvalid, hne]
  rw [h1, h2]
  intro hcontra
  have := congrArg (fun p => p.1.data.invalid_count) hcontra
  simp at this

/-- C7 witness: an empty history next to a one-commit all-valid history. -/
theorem claim_C7_witness :
    truthy (some "/repo") = true ∧
    get_commits_since_last_tag ⟨false, "", true, "", true, ""⟩ = (true, []) ∧
    get_commits_since_last_tag ⟨false, "", true, "", true, "feat: add x"⟩
      = (true, ["feat: add x"]) ∧
    (["feat: add x"] : List String) ≠ [] ∧
    validate_commits ["feat: add x"] {} = [] ∧
    (CommitValidator.main (some "/repo") {} ⟨false, "", true, "", true, ""⟩
        = ({ success := true, message := "No commits to validate",
             data := { commits_checked := some 0 } }, 0) ∧
      CommitValidator.main (some "/repo") {} ⟨false, "", true, "", true, "feat: add x"⟩
        ≠ CommitValidator.main (some "/repo") {} ⟨false, "", true, "", true, ""⟩) :=
  ⟨by decide, by decide, by decide, by decide, by decide,
    claim_C7_empty_history_distinct_success (some "/repo") {}
      ⟨false, "", true, "", true, ""⟩ ⟨false, "", true, "", true, "feat: add x"⟩
      ["feat: add x"] (by decide) (by decide) (by decide) (by decide) (by decide)⟩

/-- C9: a required field that is present but equal to the empty string is
reported as missing (failure "Missing required field: <field>", exit 1)
because presence is tested by truthiness; no git command runs and the
repository is untouched. -/
theorem claim_C9_empty_string_fields_missing (vconfig : ValidatorConfig) (venv : GitLogEnv)
    (tconfig : TaggerConfig) (repo : RepoState) (genv : GitEnv)
    (project_root : Option String) (v : String) (hv : v ≠ "") :
    CommitValidator.main (some "") vconfig venv
      = ({ success := false, message := "Missing required field: project_root",
           data := {} }, 1) ∧
    GitTagger.main (some "") project_root tconfig repo genv
      = (({ success := false, message := "Missing required field: version" }, 1), repo, []) ∧
    GitTagger.main (some v) (some "") tconfig repo genv
      = (({ success := false, message := "Missing required field: project_root" }, 1),
          repo, []) := by
  refine ⟨rfl, rfl, ?_⟩
  simp [GitTagger.main, truthy, hv]

/-- C9 witness: both hooks at concrete empty-string fields. -/
theorem claim_C9_witness :
    ("1.0.0" : String) ≠ "" ∧
    (CommitValidator.main (some "") {} ⟨false, "", true, "", true, ""⟩
        = ({ success := false, message := "Missing required field: project_root",
             data := {} }, 1) ∧
      GitTagger.main (some "") (some "/repo") {} ⟨[]⟩ ⟨true, "", true, ""⟩
        = (({ success := false, message := "Missing required field: version" }, 1),
            ⟨[]⟩, []) ∧
      GitTagger.main (some "1.0.0") (some "") {} ⟨[]⟩ ⟨true, "", true, ""⟩
        = (({ success := false, message := "Missing required field: project_root" }, 1),
            ⟨[]⟩, [])) :=
  ⟨by decide,
    claim_C9_empty_string_fields_missing {} ⟨false, "", true, "", true, ""⟩ {} ⟨[]⟩
      ⟨true, "", true, ""⟩ (some "/repo") "1.0.0" (by decide)⟩

end Verso
